import Mathlib

/-!
Verification development for the multi-vendor asynchronous job dispatch
service. The definitions below are a shallow embedding of the TypeScript
source: the Mongo-backed job store (`src/models/Job.ts`,
`src/repositories/JobRepository.ts`), the HTTP server's webhook handler and
timeout sweeper (`VendorDataFetchServer`), the background worker
(`BackgroundWorker.processJob`), the vendor managers
(`VendorManager.callVendor` / `VendorClient`), the circuit breaker
(`src/services/CircuitBreaker.ts`) and the token-bucket rate limiter
(`TokenBucketRateLimiter` / `RateLimiter`).

Timestamps are modelled as `Nat` milliseconds for jobs and `Int`
milliseconds for the circuit breaker (where differences of clock readings
appear); JavaScript floating-point token counts and rates are modelled as
rationals.
-/

/-- JSON values, as stored in `payload` / `result` (Mongoose `Mixed`). -/
inductive Json where
  | null
  | bool (b : Bool)
  | num (n : Int)
  | str (s : String)
  | arr (elems : List Json)
  | obj (fields : List (String × Json))

/-- JavaScript truthiness test on a JSON value (`!v` is `true` exactly for
`null`, `false`, `0` and the empty string among JSON values). -/
def jsFalsy : Json → Bool
  | .null => true
  | .bool b => !b
  | .num n => decide (n = 0)
  | .str s => decide (s = "")
  | .arr _ => false
  | .obj _ => false

/-- The check of `JobSchema.payload`'s validator: `v !== null && typeof v
=== 'object'` (arrays are objects in JavaScript; `null` is excluded
explicitly). -/
def isJsObjectLike : Json → Bool
  | .obj _ => true
  | .arr _ => true
  | _ => false

/-- Property access `v.key` on a JSON value: a field lookup on objects,
`undefined` (here `none`) otherwise. -/
def jsGetField (v : Json) (key : String) : Option Json :=
  match v with
  | .obj fields => (fields.find? (fun p => p.1 == key)).map (fun p => p.2)
  | _ => none

/-- Truthiness of an optional string (`undefined`, `null` and `""` are
falsy). Used for every `if (error)` guard in the source. -/
def errTruthy : Option String → Bool
  | none => false
  | some s => !(s == "")

/-- The four job lifecycle states of `JobSchema.status`. -/
inductive JobStatus where
  | pending
  | processing
  | complete
  | failed
deriving DecidableEq

/-- A stored job document (`IJobDocument`). `result`, `error` and `vendor`
default to `null` in the schema; a `null` `result` is `Json.null`, a `null`
`error`/`vendor` is `none`. -/
structure Job where
  requestId : String
  status : JobStatus
  payload : Json
  result : Json
  error : Option String
  vendor : Option String
  createdAt : Nat
  updatedAt : Nat

/-- The job collection, in insertion order. -/
abbrev JobStore := List Job

/-- Hexadecimal digit, case-insensitive, as in the schema's UUID regex
character class `[0-9a-f]` with the `i` flag. -/
def isHexDigit (c : Char) : Bool :=
  (decide ('0' ≤ c) && decide (c ≤ '9')) ||
  (decide ('a' ≤ c) && decide (c ≤ 'f')) ||
  (decide ('A' ≤ c) && decide (c ≤ 'F'))

/-- Position `i` of a canonical UUID: a dash at offsets 8, 13, 18, 23 and a
hex digit everywhere else (the anchored regex
`^[0-9a-f]\x7b8\x7d-[0-9a-f]\x7b4\x7d-[0-9a-f]\x7b4\x7d-[0-9a-f]\x7b4\x7d-[0-9a-f]\x7b12\x7d$`, case-insensitive). -/
def uuidShape (i : Nat) (c : Char) : Bool :=
  if i = 8 ∨ i = 13 ∨ i = 18 ∨ i = 23 then c == '-' else isHexDigit c

/-- The schema's UUID test on a character list. -/
def isUuidChars (cs : List Char) : Bool :=
  decide (cs.length = 36) && cs.enum.all (fun p => uuidShape p.1 p.2)

/-- The schema's UUID test on a string. -/
def isUuidStr (s : String) : Bool := isUuidChars s.data

/-- JavaScript `String.prototype.trim` on a character list. -/
def trimChars (cs : List Char) : List Char :=
  ((cs.dropWhile Char.isWhitespace).reverse.dropWhile Char.isWhitespace).reverse

/-- JavaScript `String.prototype.trim`, applied by the schema's `trim: true`
setter on `requestId` and `vendor` before validation. -/
def jsTrimStr (s : String) : String := String.mk (trimChars s.data)

/-- Error kinds surfaced by `JobRepository`: Mongoose `ValidationError`s,
the duplicate-key rejection of the unique `requestId` index, the
`not found` rejections of the update methods, and other wrapped errors
(such as the `pre('save')` business-rule hook, which throws a plain
`Error`). -/
inductive RepoError where
  | validation (msg : String)
  | duplicate (id : String)
  | notFound (id : String)
  | internal (msg : String)
deriving DecidableEq

/-- `JobModel.findOne(\x7b requestId \x7d)`: the first document whose
`requestId` matches. -/
def findById (db : JobStore) (id : String) : Option Job :=
  db.find? (fun j => j.requestId == id)

/-- Whether `updateOne(\x7b requestId \x7d, ...)` matches a document
(`matchedCount > 0`). -/
def hasId (db : JobStore) (id : String) : Bool :=
  db.any (fun j => j.requestId == id)

/-- `updateOne` semantics: apply `f` to the first document whose
`requestId` matches `id`, leaving every other document unchanged. -/
def setFirst (id : String) (f : Job → Job) : JobStore → JobStore
  | [] => []
  | j :: rest => if j.requestId == id then f j :: rest else j :: setFirst id f rest

/-- The argument of `JobRepository.create` (a `Job` domain object as built
by the API handler): `payload` is `none` when the field is missing,
`some Json.null` when it is `null`. -/
structure JobInput where
  requestId : String
  status : JobStatus
  payload : Option Json
  result : Option Json
  error : Option String
  vendor : Option String

/-- Mongoose schema validation of a new `JobModel` document, in path order:
`requestId` is trimmed, required and must match the UUID regex; `payload`
is required (`null` fails `required`) and must be a non-null object;
`error` is capped at 1000 characters. Mongoose collects all path errors
into one `ValidationError`; this model keeps the first failing message, the
error kind being what `JobRepository.create` discriminates on. -/
def validateInput (input : JobInput) : Option String :=
  let rid := jsTrimStr input.requestId
  if rid == "" then some "Request ID is required"
  else if !(isUuidStr rid) then some "Request ID must be a valid UUID"
  else
    match input.payload with
    | none => some "Payload is required"
    | some Json.null => some "Payload is required"
    | some p =>
      if !(isJsObjectLike p) then some "Payload must be a valid object"
      else
        match input.error with
        | some e => if 1000 < e.length then some "Error message cannot exceed 1000 characters" else none
        | none => none

/-- The document built from the input, with the schema defaults
(`result`/`error`/`vendor` default to `null`) and `timestamps: true`
filling both timestamps at save time. -/
def buildDoc (input : JobInput) (now : Nat) : Job :=
  { requestId := jsTrimStr input.requestId
    status := input.status
    payload := input.payload.getD Json.null
    result := input.result.getD Json.null
    error := input.error
    vendor := input.vendor.map jsTrimStr
    createdAt := now
    updatedAt := now }

/-- The `JobSchema.pre('save')` business-rule hook: a `complete` document
must have a truthy `result` or `error`; a `failed` document must have a
truthy `error`. It runs after schema validation and throws a plain
`Error`. -/
def businessRuleError (j : Job) : Option String :=
  if decide (j.status = .complete) && jsFalsy j.result && !(errTruthy j.error) then
    some "Complete jobs must have either result or error"
  else if decide (j.status = .failed) && !(errTruthy j.error) then
    some "Failed jobs must have an error message"
  else none

/-- `JobRepository.create`: `new JobModel(job).save()`. Schema validation
runs first, then the `pre('save')` hook, then the insert, which the unique
`requestId` index rejects with a duplicate-key error when the id already
exists. On any throw nothing is inserted; the pair returns the store after
the call together with the error, if any. -/
def create (db : JobStore) (input : JobInput) (now : Nat) : JobStore × Option RepoError :=
  let doc := buildDoc input now
  match validateInput input with
  | some m => (db, some (.validation m))
  | none =>
    match businessRuleError doc with
    | some m => (db, some (.internal m))
    | none =>
      if hasId db doc.requestId then (db, some (.duplicate doc.requestId))
      else (db ++ [doc], none)

/-- The per-document effect of `JobRepository.updateStatus`:
`$set \x7b status, updatedAt \x7d`. -/
def applyStatusUpdate (status : JobStatus) (now : Nat) (j : Job) : Job :=
  { j with status := status, updatedAt := now }

/-- `JobRepository.updateStatus`: an unconditional `updateOne` that throws
`not found` when no document matches. -/
def updateStatus (db : JobStore) (id : String) (status : JobStatus) (now : Nat) :
    JobStore × Option RepoError :=
  if hasId db id then (setFirst id (applyStatusUpdate status now) db, none)
  else (db, some (.notFound id))

/-- The per-document effect of `JobRepository.updateResult`: `status` and
`updatedAt` are always written; `result` only when the argument is not
`undefined` (`none`); `error` only when it is truthy. -/
def applyResultUpdate (status : JobStatus) (result? : Option Json) (error? : Option String)
    (now : Nat) (j : Job) : Job :=
  { j with
    status := status
    updatedAt := now
    result := result?.getD j.result
    error := if errTruthy error? then error? else j.error }

/-- `JobRepository.updateResult`: builds the partial `$set` document and
issues an `updateOne`; throws `not found` when no document matches. Being a
plain `updateOne`, it bypasses the `pre('save')` business-rule hook. -/
def updateResult (db : JobStore) (id : String) (status : JobStatus)
    (result? : Option Json) (error? : Option String) (now : Nat) :
    JobStore × Option RepoError :=
  if hasId db id then (setFirst id (applyResultUpdate status result? error? now) db, none)
  else (db, some (.notFound id))

/-- `JobRepository.findByStatus` (over `JobSchema.statics.findByStatus`):
filter on `status`, sort by `createdAt` descending, `limit` documents
(the repository defaults `limit` to 100). -/
def findByStatus (db : JobStore) (status : JobStatus) (limit : Nat) : List Job :=
  (List.insertionSort (fun a b : Job => b.createdAt ≤ a.createdAt)
    (db.filter (fun j => decide (j.status = status)))).take limit

/-- The body of a `POST /vendor-webhook/:vendor` request, after JSON
parsing: every field is optional. The source passes `status` straight to
`updateResult`, whose TypeScript type restricts it to the four job
statuses. -/
structure WebhookBody where
  requestId : Option String
  status : Option JobStatus
  result : Option Json
  error : Option String

/-- `VendorDataFetchServer.handleVendorWebhook`: a falsy `requestId` gives
a 400 response; otherwise `updateResult(requestId, status || 'complete',
result, error)` runs, a throw is caught by the handler's `catch` and
answered with a 500 `Internal server error` body, and success is answered
with 200. The pair is the HTTP status code and the store after the call. -/
def handleVendorWebhook (db : JobStore) (body : WebhookBody) (now : Nat) :
    Nat × JobStore :=
  match body.requestId with
  | none => (400, db)
  | some rid =>
    if rid == "" then (400, db)
    else
      match updateResult db rid (body.status.getD .complete) body.result body.error now with
      | (db2, none) => (200, db2)
      | (db2, some _) => (500, db2)

/-- The sweeper's timeout reason, verbatim. -/
def timeoutMessage : String := "Job timed out - no webhook received"

/-- The sweeper's per-job guard: `job.updatedAt < cutoffTime &&
job.vendor === 'asyncVendor'` with `cutoffTime = now - 5 * 60 * 1000`. -/
def isStale (now : Nat) (j : Job) : Bool :=
  decide (j.updatedAt < now - 300000) && decide (j.vendor = some "asyncVendor")

/-- The sweeper's `for` loop over the fetched jobs: each stale async job is
finalized with `updateResult(requestId, 'failed', null, timeoutMessage)`.
The whole loop sits in one `try`, so a throw stops the remaining
iterations (leaving earlier updates in place). -/
def sweepJobs (now : Nat) : JobStore → List Job → JobStore
  | db, [] => db
  | db, j :: rest =>
    if isStale now j then
      match updateResult db j.requestId .failed (some Json.null) (some timeoutMessage) now with
      | (db2, none) => sweepJobs now db2 rest
      | (db2, some _) => db2
    else sweepJobs now db rest

/-- `VendorDataFetchServer.checkAndTimeoutStaleJobs`: fetch the processing
jobs (`findByStatus('processing')`, default limit 100) and sweep them. -/
def checkAndTimeoutStaleJobs (db : JobStore) (now : Nat) : JobStore :=
  sweepJobs now db (findByStatus db .processing 100)

/-- `BackgroundWorker.selectVendor`: `payload.type === "sync" ||
!payload.type` selects the sync vendor, anything else the async vendor. -/
def selectVendor (payload : Json) : String :=
  match jsGetField payload "type" with
  | some (Json.str "sync") => "syncVendor"
  | none => "syncVendor"
  | some v => if jsFalsy v then "syncVendor" else "asyncVendor"

/-- The status field of a `VendorResponse` (`'success' | 'error'`). -/
inductive CallOutcome where
  | success
  | failure
deriving DecidableEq

/-- The vendor managers' `VendorResponse` record. -/
structure VendorResponse where
  data : Json
  isAsync : Bool
  callStatus : CallOutcome
  error : Option String

/-- The per-document effect of the worker's own `updateJobResult`: unlike
the repository it skips `result` when it is `null` (not `undefined`), and
skips `error` when falsy. -/
def applyWorkerResult (status : JobStatus) (result : Json) (error? : Option String)
    (now : Nat) (j : Job) : Job :=
  { j with
    status := status
    updatedAt := now
    result := match result with | Json.null => j.result | r => r
    error := if errTruthy error? then error? else j.error }

/-- `BackgroundWorker.updateJobResult`: an `updateOne` that only logs a
warning (does not throw) when no document matches. -/
def workerUpdateResult (db : JobStore) (id : String) (status : JobStatus)
    (result : Json) (error? : Option String) (now : Nat) : JobStore :=
  setFirst id (applyWorkerResult status result error? now) db

/-- `BackgroundWorker`'s vendor assignment: `updateOne(\x7b requestId \x7d,
\x7b $set: \x7b vendor, updatedAt \x7d \x7d)`. -/
def workerSetVendor (db : JobStore) (id : String) (vendor : String) (now : Nat) : JobStore :=
  setFirst id (fun j => { j with vendor := some vendor, updatedAt := now }) db

/-- The result of one `BackgroundWorker.processJob` call: the store after
the call and whether `vendorManager.callVendor` was reached. -/
structure ProcessOutcome where
  db : JobStore
  vendorInvoked : Bool

/-- `BackgroundWorker.processJob` on a queue message whose payload string
parses (messages are produced by `JobQueue.addJob`, which serializes the
request body): mark the job `processing`, record the selected vendor, call
the vendor, and for a sync response record `complete` with the cleaned
data. `clean` is the injected `DataCleaner.clean` collaborator; `resp` is
the value `callVendor` resolves with. Nothing reads the job's current
status before the vendor call. -/
def processJob (clean : Json → Json) (db : JobStore) (requestId : String)
    (payload : Json) (resp : VendorResponse) (now : Nat) : ProcessOutcome :=
  let db1 := setFirst requestId (applyStatusUpdate .processing now) db
  let vendor := selectVendor payload
  let db2 := workerSetVendor db1 requestId vendor now
  if resp.isAsync then { db := db2, vendorInvoked := true }
  else { db := workerUpdateResult db2 requestId .complete (clean resp.data) none now
         vendorInvoked := true }

/-- A `VendorConfig` entry of the vendor managers. -/
structure VendorConfig where
  name : String
  url : String
  rateLimit : Nat
  isAsync : Bool
  timeout : Nat

/-- The registry built by `VendorManager.initializeVendors` (the
`rateLimiters` map is populated for exactly the same keys). -/
def vmVendors : List (String × VendorConfig) :=
  [("syncVendor", { name := "syncVendor", url := "http://localhost:3001/api/data", rateLimit := 60, isAsync := false, timeout := 5000 }),
   ("asyncVendor", { name := "asyncVendor", url := "http://localhost:3002/api/data", rateLimit := 30, isAsync := true, timeout := 15000 })]

/-- The outcome of the `axios.post` to the vendor: a 2xx JSON reply, or a
transport/timeout/non-2xx failure with its extracted message. -/
inductive HttpOutcome where
  | ok (data : Json)
  | fail (message : String)

/-- The observable result of `VendorManager.callVendor`: the resolved
`VendorResponse` or the thrown error message, plus whether the HTTP POST
to the vendor was issued. -/
structure CallVendorResult where
  response : Option VendorResponse
  thrown : Option String
  httpAttempted : Bool

/-- `VendorManager.callVendor` (the worker's vendor path; `VendorClient.
callVendor` has the same shape): resolve the vendor or throw, wait on the
vendor's rate limiter, then issue `axios.post` directly — no circuit
breaker appears anywhere on this path — and map a rejection to a
`status: 'error'` response instead of rethrowing. -/
def callVendor (vendors : List (String × VendorConfig)) (vendorName : String)
    (payload : Json) (requestId : String) (outcome : HttpOutcome) : CallVendorResult :=
  match vendors.find? (fun p => p.1 == vendorName) with
  | none => { response := none, thrown := some ("Unknown vendor: " ++ vendorName), httpAttempted := false }
  | some (_, vendor) =>
    match outcome with
    | .ok data =>
      { response := some { data := data, isAsync := vendor.isAsync, callStatus := .success, error := none }
        thrown := none
        httpAttempted := true }
    | .fail msg =>
      { response := some { data := Json.null, isAsync := vendor.isAsync, callStatus := .failure, error := some msg }
        thrown := none
        httpAttempted := true }

/-- The circuit breaker's three states. -/
inductive CBState where
  | CLOSED
  | OPEN
  | HALF_OPEN
deriving DecidableEq

/-- `CircuitBreakerOptions`. Counters are naturals; durations are `Int`
milliseconds. -/
structure CBOptions where
  failureThreshold : Nat
  recoveryTimeout : Int
  monitoringWindow : Int
  expectedLatency : Int
  latencyThreshold : Int
  minimumRequests : Nat
deriving DecidableEq

/-- The mutable fields of a `CircuitBreaker` instance. -/
structure Breaker where
  state : CBState
  failures : Nat
  successes : Nat
  totalRequests : Nat
  lastFailureTime : Option Int
  lastStateChange : Int
  latencies : List Int
  requestTimes : List Int
deriving DecidableEq

/-- A freshly constructed breaker. -/
def breakerInit (now : Int) : Breaker :=
  { state := .CLOSED, failures := 0, successes := 0, totalRequests := 0,
    lastFailureTime := none, lastStateChange := now, latencies := [], requestTimes := [] }

/-- `CircuitBreaker.setState`. -/
def setState (b : Breaker) (s : CBState) (now : Int) : Breaker :=
  { b with state := s, lastStateChange := now }

/-- `CircuitBreaker.resetCounters`. -/
def resetCounters (b : Breaker) : Breaker :=
  { b with failures := 0, successes := 0, latencies := [] }

/-- `CircuitBreaker.shouldAttemptReset`: `true` when no failure was ever
recorded, else when at least `recoveryTimeout` elapsed since the last
failure. -/
def shouldAttemptReset (b : Breaker) (opts : CBOptions) (now : Int) : Bool :=
  match b.lastFailureTime with
  | none => true
  | some t => decide (opts.recoveryTimeout ≤ now - t)

/-- `CircuitBreaker.cleanupOldRequests`: drop request timestamps at or
before `now - monitoringWindow`. -/
def cleanupOldRequests (b : Breaker) (opts : CBOptions) (now : Int) : Breaker :=
  { b with requestTimes := b.requestTimes.filter (fun t => decide (now - opts.monitoringWindow < t)) }

/-- `CircuitBreaker.keepRecentLatencies`: past 100 entries, keep the last
50 (`slice(-50)`). -/
def keepRecentLatencies (ls : List Int) : List Int :=
  if 100 < ls.length then ls.drop (ls.length - 50) else ls

/-- `CircuitBreaker.getRecentRequestCount`. -/
def getRecentRequestCount (b : Breaker) (opts : CBOptions) (now : Int) : Nat :=
  (b.requestTimes.filter (fun t => decide (now - opts.monitoringWindow < t))).length

/-- `CircuitBreaker.getErrorRate`: `failures / (failures + successes)`,
`0` with no samples. -/
def getErrorRate (b : Breaker) : ℚ :=
  if 0 < b.failures + b.successes then (b.failures : ℚ) / ((b.failures : ℚ) + (b.successes : ℚ))
  else 0

/-- `CircuitBreaker.getAverageLatency`: mean of the recorded latencies,
`0` when empty. -/
def getAverageLatency (b : Breaker) : ℚ :=
  if b.latencies.isEmpty then 0
  else ((b.latencies.foldl (· + ·) 0 : Int) : ℚ) / (b.latencies.length : ℚ)

/-- `CircuitBreaker.shouldOpen`, in source order: below `minimumRequests`
total requests never open; then failure count against `failureThreshold`;
then the error-rate window test; then the average-latency test. -/
def shouldOpen (b : Breaker) (opts : CBOptions) (now : Int) : Bool :=
  if b.totalRequests < opts.minimumRequests then false
  else if opts.failureThreshold ≤ b.failures then true
  else if (1 / 2 : ℚ) < getErrorRate b ∧ opts.minimumRequests ≤ getRecentRequestCount b opts now then true
  else decide ((2 * opts.latencyThreshold : ℚ) < getAverageLatency b)

/-- `CircuitBreaker.onSuccess`, evaluated at wall-clock `nowAfter` (the
time the operation resolved). -/
def onSuccess (b : Breaker) (nowAfter : Int) (latency : Int) : Breaker :=
  let b1 := { b with successes := b.successes + 1,
                     latencies := keepRecentLatencies (b.latencies ++ [latency]) }
  if b1.state = .HALF_OPEN then resetCounters (setState b1 .CLOSED nowAfter) else b1

/-- `CircuitBreaker.onFailure`, evaluated at wall-clock `nowAfter`. -/
def onFailure (b : Breaker) (opts : CBOptions) (nowAfter : Int) (latency : Int) : Breaker :=
  let b1 := { b with failures := b.failures + 1,
                     lastFailureTime := some nowAfter,
                     latencies := keepRecentLatencies (b.latencies ++ [latency]) }
  if shouldOpen b1 opts nowAfter then setState b1 .OPEN nowAfter else b1

/-- The head of `CircuitBreaker.execute`: in `OPEN`, either transition to
`HALF_OPEN` (when `shouldAttemptReset`) or throw the `CircuitOpen` error
(`none`); otherwise proceed unchanged. -/
def attemptState (b : Breaker) (opts : CBOptions) (now : Int) : Option Breaker :=
  if b.state = .OPEN then
    if shouldAttemptReset b opts now then some (setState b .HALF_OPEN now) else none
  else some b

/-- How an `execute` call ended: the fast `CircuitOpen` throw, or a run of
the operation that succeeded or failed. -/
inductive ExecResult where
  | circuitOpen
  | completed (ok : Bool)
deriving DecidableEq

/-- The observable outcome of `CircuitBreaker.execute`: the breaker
afterwards, whether the wrapped operation was invoked, and how the call
ended. -/
structure ExecOutcome where
  breaker : Breaker
  opInvoked : Bool
  result : ExecResult
deriving DecidableEq

/-- `CircuitBreaker.execute`, called at wall-clock `now` on an operation
that resolves (`opOk = true`) or rejects after `latency` milliseconds (a
run longer than `latencyThreshold` loses the `Promise.race` against the
timeout and rejects). On the fast path nothing is mutated; otherwise the
request is counted and timestamped before the run, and the success or
failure handler runs at `now + latency`. -/
def execute (b : Breaker) (opts : CBOptions) (now : Int) (opOk : Bool) (latency : Int) :
    ExecOutcome :=
  match attemptState b opts now with
  | none => { breaker := b, opInvoked := false, result := .circuitOpen }
  | some b1 =>
    let b2 := cleanupOldRequests
      { b1 with totalRequests := b1.totalRequests + 1, requestTimes := b1.requestTimes ++ [now] }
      opts now
    if opOk then
      { breaker := onSuccess b2 (now + latency) latency, opInvoked := true, result := .completed true }
    else
      { breaker := onFailure b2 opts (now + latency) latency, opInvoked := true, result := .completed false }

/-- `CIRCUIT_BREAKER_CONFIGS.VENDOR_API`. -/
def vendorApiOptions : CBOptions :=
  { failureThreshold := 5, recoveryTimeout := 30000, monitoringWindow := 60000,
    expectedLatency := 1000, latencyThreshold := 5000, minimumRequests := 3 }

/-- The mutable fields of `TokenBucketRateLimiter` (`VendorClient.ts`; the
`RateLimiter` inside `VendorManager.ts` is identical). JavaScript numbers
are modelled as rationals; clock readings are milliseconds. -/
structure RateLimiterState where
  tokens : ℚ
  capacity : ℚ
  refillRate : ℚ
  lastRefill : ℚ
deriving DecidableEq

/-- The `TokenBucketRateLimiter` constructor: a full bucket, refilling at
`requestsPerMinute / 60` tokens per second. -/
def rateLimiterInit (requestsPerMinute : ℚ) (now : ℚ) : RateLimiterState :=
  { tokens := requestsPerMinute, capacity := requestsPerMinute,
    refillRate := requestsPerMinute / 60, lastRefill := now }

/-- `TokenBucketRateLimiter.refillTokens`: lazily add
`elapsedSeconds × refillRate` tokens, clamped at `capacity`. -/
def refillTokens (st : RateLimiterState) (now : ℚ) : RateLimiterState :=
  { st with
    tokens := min st.capacity (st.tokens + ((now - st.lastRefill) / 1000) * st.refillRate)
    lastRefill := now }

/-- One pass of `TokenBucketRateLimiter.waitForSlot` at wall-clock `now`:
refill, then either consume one token (`true`) or keep waiting (`false`,
the caller sleeps and retries). -/
def waitForSlotStep (st : RateLimiterState) (now : ℚ) : Bool × RateLimiterState :=
  let st1 := refillTokens st now
  if 1 ≤ st1.tokens then (true, { st1 with tokens := st1.tokens - 1 }) else (false, st1)

/-- A trace of `waitForSlot` passes at the given wall-clock times. -/
def runSlots (st : RateLimiterState) : List ℚ → RateLimiterState
  | [] => st
  | now :: rest => runSlots (waitForSlotStep st now).2 rest

/-- A canonical UUID used by the concrete scenarios. -/
def sampleUuid : String := "11111111-1111-1111-1111-111111111111"

/-- A second canonical UUID. -/
def sampleUuid2 : String := "22222222-2222-2222-2222-222222222222"

/-- A third canonical UUID. -/
def sampleUuid3 : String := "33333333-3333-3333-3333-333333333333"

/-- `sampleUuid` with a leading space: rejected by the anchored UUID regex,
but accepted by the schema after the `trim: true` setter runs. -/
def paddedUuid : String := " 11111111-1111-1111-1111-111111111111"

/-- An helper projection: the status of the stored job with the given id. -/
def statusOf (db : JobStore) (id : String) : Option JobStatus :=
  (findById db id).map Job.status

/-- An helper projection: the error field of the stored job with the given
id. -/
def errorOf (db : JobStore) (id : String) : Option (Option String) :=
  (findById db id).map Job.error

/-- `shouldOpen` answers `true` as soon as the failure count reaches
`failureThreshold`, provided the minimum-requests gate is passed. -/
theorem shouldOpen_of_threshold (b : Breaker) (opts : CBOptions) (now : Int)
    (hMin : opts.minimumRequests ≤ b.totalRequests)
    (hThr : opts.failureThreshold ≤ b.failures) :
    shouldOpen b opts now = true := by
  unfold shouldOpen
  rw [if_neg (by omega), if_pos hThr]

/-- One `waitForSlot` pass keeps the token count at or below capacity. -/
theorem waitForSlotStep_le (st : RateLimiterState) (now : ℚ) :
    (waitForSlotStep st now).2.tokens ≤ (waitForSlotStep st now).2.capacity := by
  unfold waitForSlotStep refillTokens
  dsimp only
  split
  · dsimp only
    have := min_le_left st.capacity (st.tokens + ((now - st.lastRefill) / 1000) * st.refillRate)
    linarith
  · exact min_le_left _ _

/-- Any trace of `waitForSlot` passes keeps the token count at or below
capacity. -/
theorem runSlots_tokens_le (times : List ℚ) :
    ∀ st : RateLimiterState, st.tokens ≤ st.capacity →
      (runSlots st times).tokens ≤ (runSlots st times).capacity := by
  induction times with
  | nil => intro st h; exact h
  | cons now rest ih =>
    intro st _
    exact ih (waitForSlotStep st now).2 (waitForSlotStep_le st now)

/-- C5: while the breaker is `OPEN` with a recorded last failure, any
`execute` call strictly within `recoveryTimeout` of that failure throws the
`CircuitOpen` error without invoking the operation and without mutating the
breaker; once at least `recoveryTimeout` has elapsed, `execute` moves the
breaker to `HALF_OPEN` and runs the operation. -/
theorem claim_C5 (b : Breaker) (opts : CBOptions) (now t : Int) (opOk : Bool) (latency : Int)
    (hOpen : b.state = .OPEN) (hLast : b.lastFailureTime = some t) :
    (now - t < opts.recoveryTimeout →
      execute b opts now opOk latency =
        { breaker := b, opInvoked := false, result := .circuitOpen }) ∧
    (opts.recoveryTimeout ≤ now - t →
      attemptState b opts now = some (setState b .HALF_OPEN now) ∧
      (execute b opts now opOk latency).opInvoked = true) := by
  have hres : shouldAttemptReset b opts now = decide (opts.recoveryTimeout ≤ now - t) := by
    simp [shouldAttemptReset, hLast]
  constructor
  · intro hlt
    have hfalse : shouldAttemptReset b opts now = false := by
      rw [hres]; simp; omega
    have hatt : attemptState b opts now = none := by
      simp [attemptState, hOpen, hfalse]
    simp [execute, hatt]
  · intro hge
    have htrue : shouldAttemptReset b opts now = true := by
      rw [hres]; simp [hge]
    have hatt : attemptState b opts now = some (setState b .HALF_OPEN now) := by
      simp [attemptState, hOpen, htrue]
    refine ⟨hatt, ?_⟩
    simp only [execute, hatt]
    cases opOk <;> simp

/-- Witness for C5: a breaker that opened at time 100000 still fails fast
at time 110000 under the vendor options (recovery timeout 30000). -/
theorem claim_C5_witness :
    execute
      { state := .OPEN, failures := 5, successes := 0, totalRequests := 5,
        lastFailureTime := some 100000, lastStateChange := 100000,
        latencies := [10, 10, 10, 10, 10], requestTimes := [100000] }
      vendorApiOptions 110000 true 10 =
      { breaker :=
          { state := .OPEN, failures := 5, successes := 0, totalRequests := 5,
            lastFailureTime := some 100000, lastStateChange := 100000,
            latencies := [10, 10, 10, 10, 10], requestTimes := [100000] },
        opInvoked := false, result := .circuitOpen } :=
  (claim_C5 _ vendorApiOptions 110000 100000 true 10 rfl rfl).1 (by decide)

/-- Counterexample to C6: with `failureThreshold = 1` but
`minimumRequests = 5`, the very first request fails and brings the failure
count to the threshold, yet the breaker stays `CLOSED` because
`shouldOpen` first requires `minimumRequests` total requests. -/
theorem claim_C6_counterexample :
    ({ failureThreshold := 1, recoveryTimeout := 30000, monitoringWindow := 60000,
       expectedLatency := 1000, latencyThreshold := 5000,
       minimumRequests := 5 } : CBOptions).failureThreshold ≤
      (execute (breakerInit 0)
        { failureThreshold := 1, recoveryTimeout := 30000, monitoringWindow := 60000,
          expectedLatency := 1000, latencyThreshold := 5000, minimumRequests := 5 }
        1000 false 10).breaker.failures ∧
    (execute (breakerInit 0)
      { failureThreshold := 1, recoveryTimeout := 30000, monitoringWindow := 60000,
        expectedLatency := 1000, latencyThreshold := 5000, minimumRequests := 5 }
      1000 false 10).breaker.state = .CLOSED := by
  constructor <;> rfl

/-- `onFailure` opens the breaker when the incremented failure count
reaches `failureThreshold` and the minimum-requests gate is passed. -/
theorem onFailure_state_open (b : Breaker) (opts : CBOptions) (nowAfter latency : Int)
    (hMin : opts.minimumRequests ≤ b.totalRequests)
    (hThr : opts.failureThreshold ≤ b.failures + 1) :
    (onFailure b opts nowAfter latency).state = .OPEN := by
  have hso : shouldOpen
      { b with
        failures := b.failures + 1
        lastFailureTime := some nowAfter
        latencies := keepRecentLatencies (b.latencies ++ [latency]) } opts nowAfter = true :=
    shouldOpen_of_threshold _ _ _ hMin hThr
  unfold onFailure
  simp only [hso, if_true]
  rfl

/-- C6 as amended: a failed run whose failure count reaches
`failureThreshold` opens the breaker provided the call also brings the
total request count to at least `minimumRequests`. -/
theorem claim_C6_amended (b : Breaker) (opts : CBOptions) (now : Int) (latency : Int)
    (hNotOpen : b.state ≠ .OPEN)
    (hMin : opts.minimumRequests ≤ b.totalRequests + 1)
    (hThr : opts.failureThreshold ≤ b.failures + 1) :
    (execute b opts now false latency).breaker.state = .OPEN := by
  have hatt : attemptState b opts now = some b := by
    simp [attemptState, hNotOpen]
  simp only [execute, hatt, Bool.false_eq_true, if_false]
  exact onFailure_state_open _ opts _ latency hMin hThr

/-- Witness for C6 as amended: the fifth consecutive failure under the
vendor options (threshold 5, minimum 3) opens the breaker. -/
theorem claim_C6_amended_witness :
    (execute
      { state := .CLOSED, failures := 4, successes := 0, totalRequests := 4,
        lastFailureTime := some 900, lastStateChange := 0,
        latencies := [10, 10, 10, 10], requestTimes := [100, 300, 500, 900] }
      vendorApiOptions 1000 false 10).breaker.state = .OPEN :=
  claim_C6_amended _ vendorApiOptions 1000 10 (by decide) (by decide) (by decide)

/-- C4 as amended: a webhook whose `requestId` is present and truthy but
matches no stored job makes `updateResult` throw its `not found` error,
which the handler's generic `catch` surfaces to the vendor as an HTTP 500
`Internal server error` response (not a 400-class one), leaving the store
unchanged. -/
theorem claim_C4_amended (db : JobStore) (body : WebhookBody) (now : Nat) (rid : String)
    (hrid : body.requestId = some rid) (hne : rid ≠ "") (habsent : hasId db rid = false) :
    handleVendorWebhook db body now = (500, db) := by
  cases body with
  | mk brid bstatus bresult berror =>
    cases hrid
    unfold handleVendorWebhook
    dsimp only
    rw [if_neg (by simp [hne])]
    unfold updateResult
    rw [habsent]
    simp

/-- Counterexample to C4: a webhook for an unknown `requestId` is answered
with HTTP 500, not a 400-class error. -/
theorem claim_C4_counterexample :
    findById [] sampleUuid = none ∧
    (handleVendorWebhook []
      { requestId := some sampleUuid, status := none, result := none, error := none } 0).1 = 500 := by
  constructor <;> rfl

/-- Witness for C4 as amended, on a non-empty store that lacks the id. -/
theorem claim_C4_amended_witness :
    handleVendorWebhook
      [{ requestId := sampleUuid2, status := .processing, payload := Json.obj [],
         result := Json.null, error := none, vendor := some "asyncVendor",
         createdAt := 0, updatedAt := 0 }]
      { requestId := some sampleUuid, status := some .failed, result := none, error := none } 7 =
      (500,
        [{ requestId := sampleUuid2, status := .processing, payload := Json.obj [],
           result := Json.null, error := none, vendor := some "asyncVendor",
           createdAt := 0, updatedAt := 0 }]) :=
  claim_C4_amended _ _ 7 sampleUuid rfl (by decide) (by decide)

/-- C8: the token bucket starts full (`tokens = capacity`); a successful
`waitForSlot` pass first refills to
`min(capacity, tokens + elapsedSeconds × refillRate)` and then consumes
exactly one token; and along any trace of passes the token count never
exceeds capacity. -/
theorem claim_C8 (rpm t0 : ℚ) (times : List ℚ) :
    (rateLimiterInit rpm t0).tokens = (rateLimiterInit rpm t0).capacity ∧
    (∀ (st : RateLimiterState) (now : ℚ),
        (waitForSlotStep st now).1 = true →
        (waitForSlotStep st now).2.tokens =
          min st.capacity (st.tokens + ((now - st.lastRefill) / 1000) * st.refillRate) - 1) ∧
    (runSlots (rateLimiterInit rpm t0) times).tokens ≤
      (runSlots (rateLimiterInit rpm t0) times).capacity := by
  refine ⟨rfl, ?_, runSlots_tokens_le times _ (le_refl _)⟩
  intro st now h
  unfold waitForSlotStep at h ⊢
  dsimp only at h ⊢
  by_cases hc : 1 ≤ (refillTokens st now).tokens
  · rw [if_pos hc]
    rfl
  · rw [if_neg hc] at h
    simp at h

/-- Witness for C8: a bucket of 60 tokens per minute serving three calls
inside one second. -/
theorem claim_C8_witness :
    (waitForSlotStep (rateLimiterInit 60 0) 0).1 = true ∧
    (waitForSlotStep (rateLimiterInit 60 0) 0).2.tokens =
      min (rateLimiterInit 60 0).capacity
        ((rateLimiterInit 60 0).tokens +
          ((0 - (rateLimiterInit 60 0).lastRefill) / 1000) * (rateLimiterInit 60 0).refillRate) - 1 ∧
    (runSlots (rateLimiterInit 60 0) [0, 500, 1000]).tokens ≤
      (runSlots (rateLimiterInit 60 0) [0, 500, 1000]).capacity :=
  ⟨by norm_num [waitForSlotStep, refillTokens, rateLimiterInit],
   (claim_C8 60 0 [0, 500, 1000]).2.1 (rateLimiterInit 60 0) 0
     (by norm_num [waitForSlotStep, refillTokens, rateLimiterInit]),
   (claim_C8 60 0 [0, 500, 1000]).2.2⟩

/-- The valid pending job submitted in the C1 scenario. -/
def c1Input : JobInput :=
  { requestId := sampleUuid
    status := .pending
    payload := some (Json.obj [("type", Json.str "async")])
    result := none
    error := none
    vendor := none }

/-- The store after `create` in the C1 scenario. -/
def c1Db1 : JobStore := (create [] c1Input 1000).1

/-- The store after the worker marks the job `processing`. -/
def c1Db2 : JobStore := (updateStatus c1Db1 sampleUuid .processing 2000).1

/-- A vendor webhook reporting `failed` with no error field. -/
def c1Webhook : WebhookBody :=
  { requestId := some sampleUuid, status := some .failed, result := none, error := none }

/-- The store after the webhook is processed. -/
def c1Db3 : JobStore := (handleVendorWebhook c1Db2 c1Webhook 3000).2

/-- C1 fails on the code: `updateResult` is an `updateOne` that bypasses
the `pre('save')` business rules, so a webhook carrying
`status: 'failed'` and no error leaves the store holding a `failed` job
whose `error` is `null` — exactly the state the schema's own hook
forbids. -/
theorem claim_C1_code_bug_eval :
    (create [] c1Input 1000).2 = none ∧
    (updateStatus c1Db1 sampleUuid .processing 2000).2 = none ∧
    (handleVendorWebhook c1Db2 c1Webhook 3000).1 = 200 ∧
    statusOf c1Db3 sampleUuid = some .failed ∧
    errorOf c1Db3 sampleUuid = some none := by
  exact ⟨rfl, rfl, rfl, rfl, rfl⟩

/-- A job already in the terminal `complete` state. -/
def c2CompleteJob : Job :=
  { requestId := sampleUuid
    status := .complete
    payload := Json.obj [("type", Json.str "async")]
    result := Json.obj [("ok", Json.bool true)]
    error := none
    vendor := some "asyncVendor"
    createdAt := 0
    updatedAt := 500 }

/-- `processJob` on a redelivered message for the completed job. -/
def c2Out : ProcessOutcome :=
  processJob (fun d => d) [c2CompleteJob] sampleUuid (Json.obj [("type", Json.str "async")])
    { data := Json.obj [], isAsync := true, callStatus := .success, error := none } 9000

/-- C2 fails on the code: `processJob` never reads the job's current
status, so a redelivered message for a job that is already `complete`
still reaches the vendor call, and the terminal job is even knocked back
to `processing`. -/
theorem claim_C2_code_bug_eval :
    c2CompleteJob.status = .complete ∧
    c2Out.vendorInvoked = true ∧
    statusOf c2Out.db sampleUuid = some .processing := by
  exact ⟨rfl, rfl, rfl⟩

/-- A breaker that opened at time 100000: under the vendor options it must
fail fast until time 130000. -/
def c3OpenBreaker : Breaker :=
  { state := .OPEN
    failures := 5
    successes := 0
    totalRequests := 5
    lastFailureTime := some 100000
    lastStateChange := 100000
    latencies := [100, 100, 100, 100, 100]
    requestTimes := [100000] }

/-- C3 fails on the code: the worker's vendor path
(`VendorManager.callVendor`) issues the HTTP POST for every resolved
vendor and outcome — its inputs contain no circuit breaker at all, the
`CircuitBreaker` class being referenced by neither vendor module — whereas
an `execute` wrapper on an `OPEN` breaker within `recoveryTimeout` would
have refused to invoke the operation. -/
theorem claim_C3_code_bug_eval :
    (∀ (payload : Json) (requestId : String) (outcome : HttpOutcome),
        (callVendor vmVendors "syncVendor" payload requestId outcome).httpAttempted = true) ∧
    (execute c3OpenBreaker vendorApiOptions 110000 false 10).opInvoked = false ∧
    (execute c3OpenBreaker vendorApiOptions 110000 false 10).result = .circuitOpen := by
  refine ⟨?_, rfl, rfl⟩
  intro payload requestId outcome
  cases outcome <;> rfl

/-- `applyResultUpdate` never touches `requestId`. -/
theorem applyResultUpdate_requestId (status : JobStatus) (result? : Option Json)
    (error? : Option String) (now : Nat) (j : Job) :
    (applyResultUpdate status result? error? now j).requestId = j.requestId := rfl

/-- `setFirst` preserves the sequence of `requestId`s when the update
function does. -/
theorem setFirst_map_requestId (id : String) (f : Job → Job)
    (hf : ∀ j, (f j).requestId = j.requestId) :
    ∀ db : JobStore, (setFirst id f db).map Job.requestId = db.map Job.requestId := by
  intro db
  induction db with
  | nil => rfl
  | cons j rest ih =>
    unfold setFirst
    by_cases h : (j.requestId == id) = true
    · rw [if_pos h]
      simp [hf]
    · rw [if_neg h]
      simp [ih]

/-- `hasId` only looks at the sequence of `requestId`s. -/
theorem hasId_map (db : JobStore) (id : String) :
    hasId db id = (db.map Job.requestId).any (fun s => s == id) := by
  unfold hasId
  induction db with
  | nil => rfl
  | cons j rest ih => simp [List.any_cons, ih]

/-- Stores with the same `requestId` sequence agree on `hasId`. -/
theorem hasId_congr (db db2 : JobStore) (id : String)
    (h : db.map Job.requestId = db2.map Job.requestId) : hasId db id = hasId db2 id := by
  rw [hasId_map, hasId_map, h]

/-- The two possible outcomes of `updateResult`. -/
theorem updateResult_cases (db : JobStore) (id : String) (status : JobStatus)
    (result? : Option Json) (error? : Option String) (now : Nat) :
    (updateResult db id status result? error? now =
        (setFirst id (applyResultUpdate status result? error? now) db, none) ∧
      hasId db id = true) ∨
    (updateResult db id status result? error? now = (db, some (.notFound id)) ∧
      hasId db id = false) := by
  unfold updateResult
  by_cases h : hasId db id = true
  · left
    rw [if_pos h]
    exact ⟨rfl, h⟩
  · right
    rw [if_neg h]
    exact ⟨rfl, by simpa using h⟩

/-- Looking up a different id is unaffected by `setFirst`. -/
theorem findById_setFirst_other (id id2 : String) (f : Job → Job)
    (hf : ∀ j, (f j).requestId = j.requestId) (hne : id2 ≠ id) :
    ∀ db : JobStore, findById (setFirst id f db) id2 = findById db id2 := by
  intro db
  induction db with
  | nil => rfl
  | cons j rest ih =>
    unfold setFirst
    by_cases h : (j.requestId == id) = true
    · rw [if_pos h]
      have hj : j.requestId = id := by simpa using h
      have h1 : ((f j).requestId == id2) = false := by
        simp [hf, hj]
        exact fun he => hne he.symm
      have h2 : (j.requestId == id2) = false := by
        simp [hj]
        exact fun he => hne he.symm
      unfold findById
      simp only [List.find?, h1, h2]
    · rw [if_neg h]
      unfold findById at ih ⊢
      simp only [List.find?]
      cases hj2 : (j.requestId == id2) <;> simp [ih]

/-- Looking up the updated id after `setFirst` yields the updated
document. -/
theorem findById_setFirst_self (id : String) (f : Job → Job)
    (hf : ∀ j, (f j).requestId = j.requestId) :
    ∀ db : JobStore, findById (setFirst id f db) id = (findById db id).map f := by
  intro db
  induction db with
  | nil => rfl
  | cons j rest ih =>
    unfold setFirst
    by_cases h : (j.requestId == id) = true
    · rw [if_pos h]
      have hfj : ((f j).requestId == id) = true := by
        rw [hf]
        exact h
      unfold findById
      simp only [List.find?, h, hfj]
      rfl
    · rw [if_neg h]
      unfold findById at ih ⊢
      simp only [List.find?, h]
      exact ih

/-- In a store with pairwise-distinct ids, `findById` at a member's id
returns that member. -/
theorem findById_of_mem_nodup :
    ∀ (db : JobStore), (db.map Job.requestId).Nodup →
      ∀ j ∈ db, findById db j.requestId = some j := by
  intro db
  induction db with
  | nil => intro _ j hj; cases hj
  | cons k rest ih =>
    intro hnd j hj
    have hnd2 : (k.requestId :: rest.map Job.requestId).Nodup := by simpa using hnd
    rcases List.mem_cons.mp hj with rfl | hmem
    · unfold findById
      simp [List.find?]
    · have hkne : (k.requestId == j.requestId) = false := by
        simp only [beq_eq_false_iff_ne, ne_eq]
        intro he
        exact (List.nodup_cons.mp hnd2).1 (he ▸ List.mem_map_of_mem Job.requestId hmem)
      unfold findById
      simp only [List.find?, hkne]
      exact ih (List.nodup_cons.mp hnd2).2 j hmem

/-- Unfolding equation of `sweepJobs` on a non-empty worklist. -/
theorem sweepJobs_cons (now : Nat) (db : JobStore) (j : Job) (rest : List Job) :
    sweepJobs now db (j :: rest) =
      if isStale now j then
        match updateResult db j.requestId .failed (some Json.null) (some timeoutMessage) now with
        | (db2, none) => sweepJobs now db2 rest
        | (db2, some _) => db2
      else sweepJobs now db rest := rfl

/-- The sweep loop leaves untouched every id that is not the id of a stale
entry of the worklist. -/
theorem findById_sweepJobs_frame (now : Nat) (id : String) :
    ∀ (jobs : List Job) (db : JobStore),
      (∀ k ∈ jobs, isStale now k = true → k.requestId ≠ id) →
      findById (sweepJobs now db jobs) id = findById db id := by
  intro jobs
  induction jobs with
  | nil => intro db _; rfl
  | cons k rest ih =>
    intro db h
    rw [sweepJobs_cons]
    by_cases hs : isStale now k = true
    · rw [if_pos hs]
      obtain ⟨hup, _⟩ | ⟨hup, _⟩ :=
        updateResult_cases db k.requestId .failed (some Json.null) (some timeoutMessage) now
      · rw [hup]
        dsimp only
        rw [ih _ (fun k2 hk2 hs2 => h k2 (List.mem_cons_of_mem k hk2) hs2)]
        exact findById_setFirst_other k.requestId id _
          (fun j => applyResultUpdate_requestId _ _ _ _ j)
          (fun he => h k (List.mem_cons_self k rest) hs he.symm) db
      · rw [hup]
    · rw [if_neg hs]
      exact ih db (fun k2 hk2 hs2 => h k2 (List.mem_cons_of_mem k hk2) hs2)

/-- The sweep loop finalizes every stale member of its worklist, provided
the worklist ids are pairwise distinct and every stale worklist id is
present in the store. -/
theorem findById_sweepJobs_effect (now : Nat) :
    ∀ (jobs : List Job) (db : JobStore),
      (jobs.map Job.requestId).Nodup →
      (∀ k ∈ jobs, isStale now k = true → hasId db k.requestId = true) →
      ∀ j ∈ jobs, isStale now j = true → findById db j.requestId = some j →
        findById (sweepJobs now db jobs) j.requestId =
          some (applyResultUpdate .failed (some Json.null) (some timeoutMessage) now j) := by
  intro jobs
  induction jobs with
  | nil => intro db _ _ j hj; cases hj
  | cons k rest ih =>
    intro db hnd hpres j hj hst hfind
    have hnd2 : (k.requestId :: rest.map Job.requestId).Nodup := by simpa using hnd
    rw [sweepJobs_cons]
    by_cases hks : isStale now k = true
    · rw [if_pos hks]
      have hkhas : hasId db k.requestId = true := hpres k (List.mem_cons_self k rest) hks
      obtain ⟨hup, _⟩ | ⟨_, hfalse⟩ :=
        updateResult_cases db k.requestId .failed (some Json.null) (some timeoutMessage) now
      · rw [hup]
        dsimp only
        rcases List.mem_cons.mp hj with rfl | hjm
        · have h1 : findById
              (setFirst j.requestId (applyResultUpdate .failed (some Json.null) (some timeoutMessage) now) db)
              j.requestId =
              some (applyResultUpdate .failed (some Json.null) (some timeoutMessage) now j) := by
            rw [findById_setFirst_self _ _ (fun x => applyResultUpdate_requestId _ _ _ _ x) db, hfind]
            rfl
          rw [findById_sweepJobs_frame now j.requestId rest _ ?hnot, h1]
          case hnot =>
            intro k2 hk2 _ he
            exact (List.nodup_cons.mp hnd2).1 (he ▸ List.mem_map_of_mem Job.requestId hk2)
        · have hkne : k.requestId ≠ j.requestId := by
            intro he
            exact (List.nodup_cons.mp hnd2).1 (he ▸ List.mem_map_of_mem Job.requestId hjm)
          have hfind2 : findById
              (setFirst k.requestId (applyResultUpdate .failed (some Json.null) (some timeoutMessage) now) db)
              j.requestId = some j := by
            rw [findById_setFirst_other k.requestId j.requestId _
              (fun x => applyResultUpdate_requestId _ _ _ _ x) (Ne.symm hkne) db]
            exact hfind
          have hpres2 : ∀ k2 ∈ rest, isStale now k2 = true →
              hasId (setFirst k.requestId (applyResultUpdate .failed (some Json.null) (some timeoutMessage) now) db)
                k2.requestId = true := by
            intro k2 hk2 hs2
            rw [hasId_congr _ db _
              (setFirst_map_requestId _ _ (fun x => applyResultUpdate_requestId _ _ _ _ x) db)]
            exact hpres k2 (List.mem_cons_of_mem k hk2) hs2
          exact ih _ (List.nodup_cons.mp hnd2).2 hpres2 j hjm hst hfind2
      · rw [hkhas] at hfalse
        cases hfalse
    · rw [if_neg hks]
      rcases List.mem_cons.mp hj with rfl | hjm
      · exact absurd hst hks
      · exact ih db (List.nodup_cons.mp hnd2).2
          (fun k2 h2 h3 => hpres k2 (List.mem_cons_of_mem k h2) h3) j hjm hst hfind

/-- Every job returned by `findByStatus` is a member of the store. -/
theorem findByStatus_subset (db : JobStore) (status : JobStatus) (limit : Nat) :
    ∀ j ∈ findByStatus db status limit, j ∈ db := by
  intro j hj
  unfold findByStatus at hj
  have h1 : j ∈ List.insertionSort (fun a b : Job => b.createdAt ≤ a.createdAt)
      (db.filter (fun k => decide (k.status = status))) :=
    (List.take_sublist limit _).subset hj
  have h2 : j ∈ db.filter (fun k => decide (k.status = status)) :=
    (List.perm_insertionSort _ _).subset h1
  exact (List.filter_sublist db).subset h2

/-- `findByStatus` preserves pairwise distinctness of ids. -/
theorem findByStatus_ids_nodup (db : JobStore) (status : JobStatus) (limit : Nat)
    (hnd : (db.map Job.requestId).Nodup) :
    ((findByStatus db status limit).map Job.requestId).Nodup := by
  unfold findByStatus
  have hfil : ((db.filter (fun k => decide (k.status = status))).map Job.requestId).Nodup :=
    ((List.filter_sublist db).map Job.requestId).nodup hnd
  have hperm : (List.map Job.requestId
      (List.insertionSort (fun a b : Job => b.createdAt ≤ a.createdAt)
        (db.filter (fun k => decide (k.status = status))))).Perm
      ((db.filter (fun k => decide (k.status = status))).map Job.requestId) :=
    (List.perm_insertionSort _ _).map Job.requestId
  have hsort := hperm.symm.nodup hfil
  exact ((List.take_sublist limit _).map Job.requestId).nodup hsort

/-- A member of the store is present for `hasId`. -/
theorem hasId_of_mem (db : JobStore) (j : Job) (hj : j ∈ db) :
    hasId db j.requestId = true := by
  unfold hasId
  exact List.any_eq_true.mpr ⟨j, hj, by simp⟩

/-- C7 as amended: a sweeper run finalizes, with status `failed` and the
exact error `timeoutMessage`, every job among the up-to-100 most recently
created `processing` jobs it fetches whose vendor is `asyncVendor` and
whose `updatedAt` lies strictly more than 5 minutes in the past, and never
touches a job whose vendor is `syncVendor` (ids assumed pairwise
distinct, as the unique index guarantees). -/
theorem claim_C7_amended (db : JobStore) (now : Nat)
    (hnd : (db.map Job.requestId).Nodup) :
    (∀ j ∈ findByStatus db .processing 100,
        j.updatedAt < now - 300000 → j.vendor = some "asyncVendor" →
        findById (checkAndTimeoutStaleJobs db now) j.requestId =
          some (applyResultUpdate .failed (some Json.null) (some timeoutMessage) now j)) ∧
    (∀ j ∈ db, j.vendor = some "syncVendor" →
        findById (checkAndTimeoutStaleJobs db now) j.requestId = findById db j.requestId) := by
  constructor
  · intro j hj hup hv
    have hst : isStale now j = true := by simp [isStale, hup, hv]
    unfold checkAndTimeoutStaleJobs
    refine findById_sweepJobs_effect now _ db
      (findByStatus_ids_nodup db .processing 100 hnd) ?_ j hj hst ?_
    · intro k hk _
      exact hasId_of_mem db k (findByStatus_subset db .processing 100 k hk)
    · exact findById_of_mem_nodup db hnd j (findByStatus_subset db .processing 100 j hj)
  · intro j hj hv
    unfold checkAndTimeoutStaleJobs
    refine findById_sweepJobs_frame now j.requestId _ db ?_
    intro k hk hs he
    have hkdb : k ∈ db := findByStatus_subset db .processing 100 k hk
    have hkj : k = j := List.inj_on_of_nodup_map hnd hkdb hj he
    rw [hkj] at hs
    rw [isStale] at hs
    simp [hv] at hs

/-- An async job stuck in `processing` since 100000 ms, swept well past
the deadline. -/
def c7AsyncStale : Job :=
  { requestId := sampleUuid
    status := .processing
    payload := Json.obj []
    result := Json.null
    error := none
    vendor := some "asyncVendor"
    createdAt := 10
    updatedAt := 100000 }

/-- A sync-vendor job also sitting in `processing`. -/
def c7SyncJob : Job :=
  { requestId := sampleUuid2
    status := .processing
    payload := Json.obj []
    result := Json.null
    error := none
    vendor := some "syncVendor"
    createdAt := 20
    updatedAt := 100000 }

/-- Witness for C7 as amended: at time 1000000 the stale async job is
failed with the exact timeout message, and the sync job is untouched. -/
theorem claim_C7_amended_witness :
    findById (checkAndTimeoutStaleJobs [c7AsyncStale, c7SyncJob] 1000000) sampleUuid =
      some (applyResultUpdate .failed (some Json.null) (some timeoutMessage) 1000000 c7AsyncStale) ∧
    findById (checkAndTimeoutStaleJobs [c7AsyncStale, c7SyncJob] 1000000) sampleUuid2 =
      findById [c7AsyncStale, c7SyncJob] sampleUuid2 := by
  have h := claim_C7_amended [c7AsyncStale, c7SyncJob] 1000000 (by decide)
  have hmem : c7AsyncStale ∈ findByStatus [c7AsyncStale, c7SyncJob] .processing 100 := by
    rw [show findByStatus [c7AsyncStale, c7SyncJob] .processing 100 = [c7SyncJob, c7AsyncStale] from rfl]
    exact List.mem_cons_of_mem _ (List.mem_cons_self _ _)
  exact ⟨h.1 c7AsyncStale hmem (by decide) rfl,
         h.2 c7SyncJob (List.mem_cons_of_mem _ (List.mem_cons_self _ _)) rfl⟩

/-- A processing async job whose `updatedAt` lies exactly 5 minutes in the
past at sweep time. -/
def c7BoundaryJob : Job :=
  { requestId := sampleUuid3
    status := .processing
    payload := Json.obj []
    result := Json.null
    error := none
    vendor := some "asyncVendor"
    createdAt := 0
    updatedAt := 700000 }

/-- Counterexample to C7: the sweeper's guard is the strict
`updatedAt < now - 300000`, so a job whose `updatedAt` is exactly 5
minutes old — "at least 5 minutes in the past" as the claim reads — is
left in `processing` with no error recorded. -/
theorem claim_C7_counterexample :
    c7BoundaryJob.status = .processing ∧
    c7BoundaryJob.vendor = some "asyncVendor" ∧
    1000000 - c7BoundaryJob.updatedAt = 300000 ∧
    statusOf (checkAndTimeoutStaleJobs [c7BoundaryJob] 1000000) sampleUuid3 = some .processing ∧
    errorOf (checkAndTimeoutStaleJobs [c7BoundaryJob] 1000000) sampleUuid3 = some none := by
  exact ⟨rfl, rfl, rfl, rfl, rfl⟩

/-- The four possible outcomes of `create`, in evaluation order: schema
validation, business rules, duplicate key, insert. -/
theorem create_eq (db : JobStore) (input : JobInput) (now : Nat) :
    (∃ m, create db input now = (db, some (.validation m)) ∧ validateInput input = some m) ∨
    (∃ m, create db input now = (db, some (.internal m)) ∧ validateInput input = none ∧
      businessRuleError (buildDoc input now) = some m) ∨
    (create db input now = (db, some (.duplicate (jsTrimStr input.requestId))) ∧
      validateInput input = none ∧ businessRuleError (buildDoc input now) = none ∧
      hasId db (jsTrimStr input.requestId) = true) ∨
    (create db input now = (db ++ [buildDoc input now], none) ∧
      validateInput input = none ∧ businessRuleError (buildDoc input now) = none ∧
      hasId db (jsTrimStr input.requestId) = false) := by
  have hreq : (buildDoc input now).requestId = jsTrimStr input.requestId := rfl
  cases hv : validateInput input with
  | some m =>
    left
    exact ⟨m, by simp only [create, hv], rfl⟩
  | none =>
    cases hb : businessRuleError (buildDoc input now) with
    | some m =>
      right; left
      exact ⟨m, by simp only [create, hv, hb], rfl, rfl⟩
    | none =>
      by_cases hd : hasId db (jsTrimStr input.requestId) = true
      · right; right; left
        refine ⟨?_, rfl, rfl, hd⟩
        simp only [create, hv, hb, hreq, hd, if_true]
      · right; right; right
        have hd2 : hasId db (jsTrimStr input.requestId) = false := by simpa using hd
        refine ⟨?_, rfl, rfl, hd2⟩
        simp only [create, hv, hb, hreq, hd2, Bool.false_eq_true, if_false]

/-- A `requestId` that fails the UUID test after trimming is rejected by
schema validation. -/
theorem create_validation_of_bad_uuid (db : JobStore) (input : JobInput) (now : Nat)
    (huuid : isUuidStr (jsTrimStr input.requestId) = false) :
    ∃ m, create db input now = (db, some (.validation m)) := by
  by_cases h1 : (jsTrimStr input.requestId == "") = true
  · refine ⟨"Request ID is required", ?_⟩
    have hv : validateInput input = some "Request ID is required" := by
      unfold validateInput
      rw [if_pos h1]
    simp only [create, hv]
  · refine ⟨"Request ID must be a valid UUID", ?_⟩
    have hv : validateInput input = some "Request ID must be a valid UUID" := by
      unfold validateInput
      rw [if_neg h1, if_pos (by simp [huuid])]
    simp only [create, hv]

/-- A missing, `null` or non-object payload is rejected by schema
validation. -/
theorem create_validation_of_bad_payload (db : JobStore) (input : JobInput) (now : Nat)
    (hpay : input.payload = none ∨ input.payload = some Json.null ∨
      ∃ p, input.payload = some p ∧ isJsObjectLike p = false) :
    ∃ m, create db input now = (db, some (.validation m)) := by
  by_cases h1 : (jsTrimStr input.requestId == "") = true
  · refine ⟨"Request ID is required", ?_⟩
    have hv : validateInput input = some "Request ID is required" := by
      unfold validateInput
      rw [if_pos h1]
    simp only [create, hv]
  · by_cases h2 : (!(isUuidStr (jsTrimStr input.requestId))) = true
    · refine ⟨"Request ID must be a valid UUID", ?_⟩
      have hv : validateInput input = some "Request ID must be a valid UUID" := by
        unfold validateInput
        rw [if_neg h1, if_pos h2]
      simp only [create, hv]
    · rcases hpay with hp | hp | ⟨p, hp, hpne⟩
      · refine ⟨"Payload is required", ?_⟩
        have hv : validateInput input = some "Payload is required" := by
          unfold validateInput
          rw [if_neg h1, if_neg h2, hp]
        simp only [create, hv]
      · refine ⟨"Payload is required", ?_⟩
        have hv : validateInput input = some "Payload is required" := by
          unfold validateInput
          rw [if_neg h1, if_neg h2, hp]
        simp only [create, hv]
      · cases p with
        | null =>
          refine ⟨"Payload is required", ?_⟩
          have hv : validateInput input = some "Payload is required" := by
            unfold validateInput
            rw [if_neg h1, if_neg h2, hp]
          simp only [create, hv]
        | bool b =>
          refine ⟨"Payload must be a valid object", ?_⟩
          have hv : validateInput input = some "Payload must be a valid object" := by
            unfold validateInput
            rw [if_neg h1, if_neg h2, hp]
            simp [isJsObjectLike]
          simp only [create, hv]
        | num n =>
          refine ⟨"Payload must be a valid object", ?_⟩
          have hv : validateInput input = some "Payload must be a valid object" := by
            unfold validateInput
            rw [if_neg h1, if_neg h2, hp]
            simp [isJsObjectLike]
          simp only [create, hv]
        | str s =>
          refine ⟨"Payload must be a valid object", ?_⟩
          have hv : validateInput input = some "Payload must be a valid object" := by
            unfold validateInput
            rw [if_neg h1, if_neg h2, hp]
            simp [isJsObjectLike]
          simp only [create, hv]
        | arr elems => simp [isJsObjectLike] at hpne
        | obj fields => simp [isJsObjectLike] at hpne

/-- C9 as amended: `create` rejects with a `ValidationError` any job whose
trimmed `requestId` fails the UUID regex (the `trim: true` setter runs
first, so only the trimmed value is tested), and any job whose payload is
missing, `null` or not an object; a rejection of any kind leaves the store
unchanged; and a job that passes schema and business validation but whose
trimmed `requestId` already exists is rejected with a `DuplicateId`
error. -/
theorem claim_C9_amended (db : JobStore) (input : JobInput) (now : Nat) :
    (isUuidStr (jsTrimStr input.requestId) = false →
        ∃ m, create db input now = (db, some (.validation m))) ∧
    ((input.payload = none ∨ input.payload = some Json.null ∨
        ∃ p, input.payload = some p ∧ isJsObjectLike p = false) →
        ∃ m, create db input now = (db, some (.validation m))) ∧
    ((create db input now).2 ≠ none → (create db input now).1 = db) ∧
    ((create [] input now).2 = none → hasId db (jsTrimStr input.requestId) = true →
        create db input now = (db, some (.duplicate (jsTrimStr input.requestId)))) := by
  refine ⟨create_validation_of_bad_uuid db input now,
          create_validation_of_bad_payload db input now, ?_, ?_⟩
  · intro hne
    rcases create_eq db input now with ⟨m, hc, _⟩ | ⟨m, hc, _, _⟩ | ⟨hc, _, _, _⟩ | ⟨hc, _, _, _⟩
    · rw [hc]
    · rw [hc]
    · rw [hc]
    · rw [hc] at hne
      exact absurd rfl hne
  · intro hok hdup
    rcases create_eq [] input now with ⟨m, hc, hv⟩ | ⟨m, hc, hv, hb⟩ | ⟨hc, hv, hb, hd⟩ | ⟨hc, hv, hb, hd⟩
    · rw [hc] at hok
      simp at hok
    · rw [hc] at hok
      simp at hok
    · rw [show hasId [] (jsTrimStr input.requestId) = false from rfl] at hd
      cases hd
    · rcases create_eq db input now with ⟨m, hc2, hv2⟩ | ⟨m, hc2, hv2, hb2⟩ | ⟨hc2, _, _, _⟩ | ⟨hc2, _, _, hd2⟩
      · rw [hv] at hv2
        cases hv2
      · rw [hb] at hb2
        cases hb2
      · exact hc2
      · rw [hdup] at hd2
        cases hd2

/-- The padded-but-otherwise-valid job of the C9 counterexample. -/
def c9PaddedInput : JobInput :=
  { requestId := paddedUuid
    status := .pending
    payload := some (Json.obj [])
    result := none
    error := none
    vendor := none }

/-- Counterexample to C9: a `requestId` with a leading space fails the
anchored UUID regex, yet `create` accepts the job (inserting it with the
trimmed id) because the schema trims before validating. -/
theorem claim_C9_counterexample :
    isUuidStr paddedUuid = false ∧
    (create [] c9PaddedInput 0).2 = none ∧
    (create [] c9PaddedInput 0).1.length = 1 := by
  exact ⟨rfl, rfl, rfl⟩

/-- A schema-valid pending job used by the C9 witness. -/
def c9ValidInput : JobInput :=
  { requestId := sampleUuid
    status := .pending
    payload := some (Json.obj [])
    result := none
    error := none
    vendor := none }

/-- Witness for C9 as amended: re-creating an existing job is rejected
with the duplicate-key error. -/
theorem claim_C9_amended_witness :
    create ((create [] c9ValidInput 0).1) c9ValidInput 5 =
      ((create [] c9ValidInput 0).1, some (.duplicate (jsTrimStr c9ValidInput.requestId))) :=
  (claim_C9_amended ((create [] c9ValidInput 0).1) c9ValidInput 5).2.2.2 rfl rfl

/-- `Forall₂` reflexivity from a reflexive relation. -/
theorem forall₂_refl_of (P : Job → Job → Prop) (hsame : ∀ j, P j j) :
    ∀ l : JobStore, List.Forall₂ P l l := by
  intro l
  induction l with
  | nil => exact List.Forall₂.nil
  | cons x xs ih => exact List.Forall₂.cons (hsame x) ih

/-- `setFirst` relates the old and new stores pointwise: the first match
is updated by `f`, everything else is untouched. -/
theorem forall₂_setFirst (P : Job → Job → Prop) (id : String) (f : Job → Job)
    (hchanged : ∀ j, j.requestId = id → P j (f j)) (hsame : ∀ j, P j j) :
    ∀ db : JobStore, List.Forall₂ P db (setFirst id f db) := by
  intro db
  induction db with
  | nil => exact List.Forall₂.nil
  | cons j rest ih =>
    unfold setFirst
    by_cases h : (j.requestId == id) = true
    · rw [if_pos h]
      exact List.Forall₂.cons (hchanged j (by simpa using h)) (forall₂_refl_of P hsame rest)
    · rw [if_neg h]
      exact List.Forall₂.cons (hsame j) ih

/-- C10: a successful `updateResult` relates old and new stores pointwise —
`requestId`, `payload`, `vendor` and `createdAt` are never modified; the
stored `result` survives when the argument is `undefined`; the stored
`error` survives when the argument is absent or empty (so overwriting a
`failed` job as `complete` keeps the old error string); any job whose id
differs is wholly untouched; and a job is either untouched or carries the
new status and `updatedAt`. -/
theorem claim_C10 (db : JobStore) (id : String) (status : JobStatus)
    (result? : Option Json) (error? : Option String) (now : Nat) (db2 : JobStore)
    (h : updateResult db id status result? error? now = (db2, none)) :
    List.Forall₂ (fun j j2 =>
      j2.requestId = j.requestId ∧ j2.payload = j.payload ∧ j2.vendor = j.vendor ∧
      j2.createdAt = j.createdAt ∧
      (result? = none → j2.result = j.result) ∧
      (errTruthy error? = false → j2.error = j.error) ∧
      (j.requestId ≠ id → j2 = j) ∧
      (j2 = j ∨ (j2.status = status ∧ j2.updatedAt = now))) db db2 := by
  obtain ⟨hup, _⟩ | ⟨hup, _⟩ := updateResult_cases db id status result? error? now
  · rw [hup] at h
    injection h with h1 _
    subst h1
    apply forall₂_setFirst
    · intro j hj
      refine ⟨rfl, rfl, rfl, rfl, ?_, ?_, ?_, Or.inr ⟨rfl, rfl⟩⟩
      · intro hr
        subst hr
        rfl
      · intro he
        simp [applyResultUpdate, he]
      · intro hne
        exact absurd hj hne
    · intro j
      exact ⟨rfl, rfl, rfl, rfl, fun _ => rfl, fun _ => rfl, fun _ => rfl, Or.inl rfl⟩
  · rw [hup] at h
    injection h with _ h2
    cases h2

/-- A job finalized as `failed` with a recorded error string. -/
def c10Failed : Job :=
  { requestId := sampleUuid
    status := .failed
    payload := Json.obj [("type", Json.str "async")]
    result := Json.null
    error := some "vendor exploded"
    vendor := some "asyncVendor"
    createdAt := 0
    updatedAt := 100 }

/-- A second, unrelated job. -/
def c10Other : Job :=
  { requestId := sampleUuid2
    status := .pending
    payload := Json.obj []
    result := Json.null
    error := none
    vendor := none
    createdAt := 1
    updatedAt := 1 }

/-- Witness for C10: overwriting the failed job as `complete` with a
result but no error keeps the old error string and leaves the other job
untouched. -/
theorem claim_C10_witness :
    List.Forall₂ (fun j j2 =>
      j2.requestId = j.requestId ∧ j2.payload = j.payload ∧ j2.vendor = j.vendor ∧
      j2.createdAt = j.createdAt ∧
      ((some (Json.obj [("ok", Json.bool true)]) : Option Json) = none → j2.result = j.result) ∧
      (errTruthy none = false → j2.error = j.error) ∧
      (j.requestId ≠ sampleUuid → j2 = j) ∧
      (j2 = j ∨ (j2.status = .complete ∧ j2.updatedAt = 200)))
      [c10Failed, c10Other]
      ((updateResult [c10Failed, c10Other] sampleUuid .complete
        (some (Json.obj [("ok", Json.bool true)])) none 200).1) :=
  claim_C10 [c10Failed, c10Other] sampleUuid .complete
    (some (Json.obj [("ok", Json.bool true)])) none 200
    ((updateResult [c10Failed, c10Other] sampleUuid .complete
      (some (Json.obj [("ok", Json.bool true)])) none 200).1) rfl
